import Mathlib

/-!
Verification of the autotracker death-detection core.

Shallow embedding of the detection core of `bb_detector`:
  - `detector.py` (`DeathDetector`): keyword normalization, fuzzy OCR
    correction, streak confirmation;
  - `main.py` (`BBDetectorApp._get_detection_region`, `_main_loop`):
    region resolution and the death-event cooldown;
  - `config.py` (`Config.get`): dotted-key lookup with defaulting.

Python strings are modelled as `List Char`; character-level upper-casing
and the alphanumeric test model Python's Unicode-aware `str.upper` /
`str.isalnum` on the character sets this project uses (ASCII plus the
Cyrillic block used in keyword lists).  Python floats that only ever hold
exact small decimals (region fractions, confidences, timestamps) are
modelled as rationals.
-/

namespace BBDetector

/-! ## Keyword Normalizer (`detector.py`, `DeathDetector._contains_keyword`) -/

/-- Model of Python `str.isalnum` restricted to the alphabets occurring in
this project: ASCII letters and digits, plus the Cyrillic block
U+0400 - U+04FF used by the Russian keyword lists. -/
def pyIsAlnum (c : Char) : Bool :=
  c.isAlphanum || (0x400 ≤ c.toNat && c.toNat ≤ 0x4FF)

/-- Model of Python `str.upper` applied character by character. -/
def pyUpper (s : List Char) : List Char :=
  s.map Char.toUpper

/-- `''.join(c for c in text.upper() if c.isalnum())` — upper-case, then keep
only alphanumeric characters. -/
def normalizeText (s : List Char) : List Char :=
  (pyUpper s).filter pyIsAlnum

/-- `str.replace('0', 'O')` on single characters: map `'0'` to `'O'`. -/
def replace0 (c : Char) : Char := if c = '0' then 'O' else c

/-- `str.replace('1', 'I')` on single characters. -/
def replace1 (c : Char) : Char := if c = '1' then 'I' else c

/-- `str.replace('3', 'E')` on single characters. -/
def replace3 (c : Char) : Char := if c = '3' then 'E' else c

/-- `str.replace('5', 'S')` on single characters. -/
def replace5 (c : Char) : Char := if c = '5' then 'S' else c

/-- `str.replace('7', 'T')` on single characters. -/
def replace7 (c : Char) : Char := if c = '7' then 'T' else c

/-- The chained fuzzy OCR correction
`normalized.replace('0','O').replace('1','I').replace('3','E').replace('5','S').replace('7','T')`.
Each `replace` of a single-character pattern is a character-by-character map
over the whole string, applied left to right. -/
def fuzzyCorrect (s : List Char) : List Char :=
  ((((s.map replace0).map replace1).map replace3).map replace5).map replace7

/-- `keyword.replace(' ', '').upper()` — keyword canonicalization: remove
spaces, then upper-case.  (Note: unlike the text normalization, this does
NOT strip other non-alphanumeric characters.) -/
def normalizeKeyword (kw : List Char) : List Char :=
  pyUpper (kw.filter (fun c => c != ' '))

/-- Python's substring test `pat in s` on lists of characters. -/
def containsSub (pat : List Char) : List Char → Bool
  | [] => pat.isEmpty
  | c :: cs => pat.isPrefixOf (c :: cs) || containsSub pat cs

/-- `DeathDetector._contains_keyword`: normalize the OCR text, optionally
apply the fuzzy correction, and test whether any configured keyword's
canonical form occurs in the normalized or the corrected text. -/
def containsKeyword (fuzzyMatching : Bool) (keywords : List (List Char))
    (text : List Char) : Bool :=
  let normalized := normalizeText text
  let corrected := if fuzzyMatching then fuzzyCorrect normalized else normalized
  keywords.any (fun keyword =>
    let kwNormalized := normalizeKeyword keyword
    containsSub kwNormalized normalized || containsSub kwNormalized corrected)

/-- The keyword-match predicate as the specification words it: the keyword
is canonicalized by upper-casing and stripping every non-alphanumeric
character (the same canonicalization the OCR text receives).  Kept distinct
from `containsKeyword`, which is translated from the source, so the two can
be compared. -/
def containsKeywordSpec (fuzzyMatching : Bool) (keywords : List (List Char))
    (text : List Char) : Bool :=
  let normalized := normalizeText text
  let corrected := if fuzzyMatching then fuzzyCorrect normalized else normalized
  keywords.any (fun keyword =>
    let kwNormalized := normalizeText keyword
    containsSub kwNormalized normalized || containsSub kwNormalized corrected)

/-! ## Death Classifier (`detector.py`, `DeathDetector`) -/

/-- The mutable classifier state of a `DeathDetector` object: the streak
counter `consecutive_hits`, the configured `required_streak` (an unvalidated
integer read from config), the fuzzy flag, the keyword list, and the
debugging fields `last_method` / `last_confidence`. -/
structure DetectorState where
  consecutiveHits : Nat
  requiredStreak : Int
  fuzzyMatching : Bool
  keywords : List (List Char)
  lastMethod : Option (List Char)
  lastConfidence : ℚ
  deriving DecidableEq

/-- `DeathDetector._confirm_detection`: update the streak counter and the
debug fields, confirm when the counter has reached `required_streak`, and
reset the counter on confirmation.  Returns the `(confirmed, confidence)`
pair together with the updated state. -/
def confirmDetection (s : DetectorState) (detected : Bool) (confidence : ℚ)
    (method : Option (List Char)) : (Bool × ℚ) × DetectorState :=
  let s1 :=
    if detected then
      { s with consecutiveHits := s.consecutiveHits + 1
               lastMethod := method
               lastConfidence := confidence }
    else
      { s with consecutiveHits := 0
               lastMethod := none
               lastConfidence := confidence }
  let confirmed : Bool := (s1.consecutiveHits : Int) ≥ s1.requiredStreak
  let s2 := if confirmed then { s1 with consecutiveHits := 0 } else s1
  ((confirmed, confidence), s2)

/-- `DeathDetector.check_death`: a null frame returns `(False, 0.0)` at once;
otherwise, when OCR is available its outcome feeds `_confirm_detection` with
confidence `1.0` on a hit, and every other case feeds it a non-detection with
confidence `0.0`.  The OCR pipeline (`_ocr_detect`) is abstracted as a
function from frames to `(detected, text)`. -/
def checkDeath {Frame : Type} (ocrAvailable : Bool)
    (ocrDetect : Frame → Bool × List Char) (s : DetectorState)
    (frame : Option Frame) : (Bool × ℚ) × DetectorState :=
  match frame with
  | none => ((false, 0), s)
  | some f =>
    if ocrAvailable then
      match ocrDetect f with
      | (true, text) => confirmDetection s true 1 (some text)
      | (false, _) => confirmDetection s false 0 none
    else
      confirmDetection s false 0 none

/-- Run `check_death` over a list of frames in order, collecting the
`(confirmed, confidence)` results and threading the state. -/
def runFrames {Frame : Type} (ocrAvailable : Bool)
    (ocrDetect : Frame → Bool × List Char) (s : DetectorState) :
    List (Option Frame) → List (Bool × ℚ) × DetectorState
  | [] => ([], s)
  | f :: rest =>
    let step := checkDeath ocrAvailable ocrDetect s f
    let next := runFrames ocrAvailable ocrDetect step.2 rest
    (step.1 :: next.1, next.2)

/-- The configuration values `DeathDetector._load_settings` reads (already
fetched through `Config.get` with their defaults applied):
`settings.consecutive_hits` (no `≥ 1` validation is performed on it),
`settings.fuzzy_ocr_matching`, and the current game's keyword list. -/
structure SettingsSrc where
  consecutiveHits : Int
  fuzzyMatching : Bool
  keywords : List (List Char)

/-- `DeathDetector._load_settings`: reset the streak counter and install the
configured values. -/
def loadSettings (cfg : SettingsSrc) (s : DetectorState) : DetectorState :=
  { s with consecutiveHits := 0
           requiredStreak := cfg.consecutiveHits
           fuzzyMatching := cfg.fuzzyMatching
           keywords := cfg.keywords }

/-- `DeathDetector.reload`: re-run `_load_settings`, then set
`consecutive_hits` to `0` (again). -/
def reload (cfg : SettingsSrc) (s : DetectorState) : DetectorState :=
  { loadSettings cfg s with consecutiveHits := 0 }

/-! ## Region Resolver (`main.py`, `BBDetectorApp._get_detection_region`) -/

/-- Python `int()` applied to a number: truncation toward zero. -/
def truncInt (q : ℚ) : Int :=
  if 0 ≤ q then ⌊q⌋ else -⌊-q⌋

/-- Absolute window bounds as returned by the window-lookup capability
(`find_window_by_name(...)['bounds']`). -/
structure Bounds where
  x : Int
  y : Int
  width : Int
  height : Int
  deriving DecidableEq

/-- The configuration values `_get_detection_region` reads (already fetched
through `Config.get` with their defaults): the window-name hint, the four
window-relative fractions, the absolute fallback rectangle, and the legacy
absolute rectangle. -/
structure RegionConfig where
  windowName : List Char
  xPct : ℚ
  yPct : ℚ
  wPct : ℚ
  hPct : ℚ
  absX : Int
  absY : Int
  absW : Int
  absH : Int
  legacyX : Int
  legacyY : Int
  legacyW : Int
  legacyH : Int
  deriving DecidableEq

/-- `BBDetectorApp._get_detection_region`.  With a non-empty window-name
hint: if the window is found and both fraction sides are positive, return
the window-relative rectangle (`int()`-truncated); otherwise fall through to
the absolute fallback if its width and height are positive.  In all
remaining cases, return the legacy absolute rectangle if its width and
height are positive, else `None`. -/
def getDetectionRegion (cfg : RegionConfig)
    (findWindow : List Char → Option Bounds) :
    Option (Int × Int × Int × Int) :=
  let viaWindow : Option (Int × Int × Int × Int) :=
    if cfg.windowName = [] then none
    else
      let fromWindow : Option (Int × Int × Int × Int) :=
        match findWindow cfg.windowName with
        | some wb =>
          if 0 < cfg.wPct ∧ 0 < cfg.hPct then
            some (truncInt ((wb.x : ℚ) + cfg.xPct * (wb.width : ℚ)),
                  truncInt ((wb.y : ℚ) + cfg.yPct * (wb.height : ℚ)),
                  truncInt (cfg.wPct * (wb.width : ℚ)),
                  truncInt (cfg.hPct * (wb.height : ℚ)))
          else none
        | none => none
      match fromWindow with
      | some r => some r
      | none =>
        if 0 < cfg.absW ∧ 0 < cfg.absH then
          some (cfg.absX, cfg.absY, cfg.absW, cfg.absH)
        else none
  match viaWindow with
  | some r => some r
  | none =>
    if 0 < cfg.legacyW ∧ 0 < cfg.legacyH then
      some (cfg.legacyX, cfg.legacyY, cfg.legacyW, cfg.legacyH)
    else none

/-! ## Session/Cooldown Controller (`main.py`, `BBDetectorApp._main_loop`
and `_handle_death`) -/

/-- The two remote event kinds `_handle_death` can dispatch. -/
inductive EventType where
  | death
  | bossDeath
  deriving DecidableEq

/-- The main loop's cooldown state: `self._last_death_time` plus the list of
events dispatched so far (most recent last), standing for the calls made to
the Remote Reporting Client. -/
structure LoopState where
  lastDeathTime : ℚ
  events : List EventType
  deriving DecidableEq

/-- The cooldown gate of `_main_loop` combined with `_handle_death`: on a
confirmed detection (`is_dead`) at wall-clock time `now`, dispatch iff
`now - last_death_time > cooldown`; on dispatch, set `last_death_time := now`
and send a boss-death or normal-death event according to the boss-mode flag;
otherwise leave the state untouched. -/
def handleDetection (cooldown : ℚ) (bossMode : Bool) (st : LoopState)
    (isDead : Bool) (now : ℚ) : LoopState :=
  if isDead then
    if now - st.lastDeathTime > cooldown then
      { lastDeathTime := now
        events := st.events ++ [if bossMode then EventType.bossDeath else EventType.death] }
    else st
  else st

/-! ## Configuration lookup (`config.py`, `Config.get`) -/

/-- JSON-style configuration values as stored in `Config._data`. -/
inductive JValue where
  | null
  | bool (b : Bool)
  | int (n : Int)
  | num (q : ℚ)
  | str (s : List Char)
  | list (xs : List JValue)
  | dict (entries : List (List Char × JValue))

/-- Python dict lookup `value[k]` guarded by `k in value`, on an association
list with distinct keys. -/
def dictFind : List (List Char × JValue) → List Char → Option JValue
  | [], _ => none
  | (k', v) :: rest, k => if k' = k then some v else dictFind rest k

/-- The traversal loop of `Config.get`: follow the key path while the
current value is a dict containing the segment; `none` models the loop's
early `return default`. -/
def getLoop : JValue → List (List Char) → Option JValue
  | v, [] => some v
  | JValue.dict entries, k :: rest =>
    (match dictFind entries k with
     | some v => getLoop v rest
     | none => none)
  | _, _ :: _ => none

/-- `Config.get` over a pre-split key path: run the traversal, returning the
default on a missing segment / non-dict intermediate, and also when the
stored value is exactly `None`. -/
def configGetKeys (data : JValue) (keys : List (List Char))
    (default : JValue) : JValue :=
  match getLoop data keys with
  | some JValue.null => default
  | some v => v
  | none => default

/-- `Config.get`: split the dotted key (`key.split('.')`) and look it up. -/
def configGet (data : JValue) (key : List Char) (default : JValue) : JValue :=
  configGetKeys data (key.splitOn '.') default

/-- Relational description of a successful traversal: `Stored data keys v`
holds when following `keys` through nested dicts from `data` reaches the
stored value `v`.  This is the specification-side counterpart of `getLoop`. -/
inductive Stored : JValue → List (List Char) → JValue → Prop
  | nil (v : JValue) : Stored v [] v
  | cons {entries : List (List Char × JValue)} {k : List Char}
      {rest : List (List Char)} {v w : JValue} :
      dictFind entries k = some v → Stored v rest w →
      Stored (JValue.dict entries) (k :: rest) w

/-! ## Concrete instances used by witnesses and counterexamples -/

/-- The five fuzzy substitutions applied in sequence to one character.
`fuzzyCorrect` is shown below to be the character-by-character map of this
function. -/
def correctChar (c : Char) : Char :=
  replace7 (replace5 (replace3 (replace1 (replace0 c))))

/-- The spec's region-resolution example: fractions (0.25, 0.40, 0.50, 0.20)
with no absolute fallback and no legacy rectangle. -/
def regionCfgExample : RegionConfig :=
  { windowName := "Game".toList
    xPct := 0.25, yPct := 0.40, wPct := 0.50, hPct := 0.20
    absX := 0, absY := 0, absW := 0, absH := 0
    legacyX := 0, legacyY := 0, legacyW := 0, legacyH := 0 }

/-- A window lookup that finds bounds `{x:100, y:50, width:800, height:600}`
for every window name. -/
def findWindowExample : List Char → Option Bounds :=
  fun _ => some { x := 100, y := 50, width := 800, height := 600 }

/-- A window-relative region whose fractions are all zero but whose absolute
fallback rectangle `{x:10, y:10, width:200, height:100}` is present. -/
def regionCfgZeroPct : RegionConfig :=
  { windowName := "Game".toList
    xPct := 0, yPct := 0, wPct := 0, hPct := 0
    absX := 10, absY := 10, absW := 200, absH := 100
    legacyX := 0, legacyY := 0, legacyW := 0, legacyH := 0 }

/-- A classifier state with streak counter `0` and `required_streak = 2`
(the default configuration). -/
def detectorStateStreak2 : DetectorState :=
  { consecutiveHits := 0, requiredStreak := 2, fuzzyMatching := true
    keywords := [], lastMethod := none, lastConfidence := 0 }

/-- A classifier state whose configured `required_streak` is `0`, as the
unvalidated config allows. -/
def detectorStateStreak0 : DetectorState :=
  { consecutiveHits := 0, requiredStreak := 0, fuzzyMatching := true
    keywords := [], lastMethod := none, lastConfidence := 0 }

/-! ## Helper lemmas -/

/-- `containsSub` decides Python's substring relation: it holds exactly when
the pattern is a contiguous infix of the text. -/
theorem containsSub_iff (pat : List Char) (s : List Char) :
    containsSub pat s = true ↔ pat <:+: s := by
  induction s with
  | nil =>
    cases pat <;> simp [containsSub]
  | cons c cs ih =>
    simp [containsSub, ih, List.infix_cons_iff, List.isPrefixOf_iff_prefix]

/-- Closed form of `_confirm_detection` on a detected frame. -/
theorem confirmDetection_true (s : DetectorState) (conf : ℚ)
    (m : Option (List Char)) :
    confirmDetection s true conf m =
      if ((s.consecutiveHits + 1 : Nat) : Int) ≥ s.requiredStreak then
        ((true, conf),
          { s with consecutiveHits := 0, lastMethod := m, lastConfidence := conf })
      else
        ((false, conf),
          { s with consecutiveHits := s.consecutiveHits + 1, lastMethod := m,
                   lastConfidence := conf }) := by
  unfold confirmDetection
  by_cases h : s.requiredStreak ≤ (s.consecutiveHits : Int) + 1 <;> simp [h]

/-- Closed form of `_confirm_detection` on a non-detected frame. -/
theorem confirmDetection_false (s : DetectorState) (conf : ℚ)
    (m : Option (List Char)) :
    confirmDetection s false conf m =
      ((decide ((0 : Int) ≥ s.requiredStreak), conf),
        { s with consecutiveHits := 0, lastMethod := none,
                 lastConfidence := conf }) := by
  unfold confirmDetection
  by_cases h : (0 : Int) ≥ s.requiredStreak <;> simp [h]

/-- The chained `replace` calls of the fuzzy correction act on a cons cell
by correcting the head character and recursing on the tail. -/
theorem fuzzyCorrect_cons (c : Char) (cs : List Char) :
    fuzzyCorrect (c :: cs) = correctChar c :: fuzzyCorrect cs := rfl

/-- One fuzzy-corrected character is a fixed point of the correction. -/
theorem correctChar_idem (c : Char) :
    correctChar (correctChar c) = correctChar c := by
  by_cases h0 : c = '0'
  · subst h0; decide
  by_cases h1 : c = '1'
  · subst h1; decide
  by_cases h3 : c = '3'
  · subst h3; decide
  by_cases h5 : c = '5'
  · subst h5; decide
  by_cases h7 : c = '7'
  · subst h7; decide
  have hc : correctChar c = c := by
    simp [correctChar, replace0, replace1, replace3, replace5, replace7,
      h0, h1, h3, h5, h7]
  rw [hc, hc]

/-- The traversal loop of `Config.get` succeeds with value `v` exactly when
the relational description `Stored` does. -/
theorem getLoop_eq_some_iff :
    ∀ (keys : List (List Char)) (data v : JValue),
      getLoop data keys = some v ↔ Stored data keys v := by
  intro keys
  induction keys with
  | nil =>
    intro data v
    constructor
    · intro h
      cases data <;> simp [getLoop] at h <;> rw [h] <;> exact Stored.nil _
    · intro h
      cases h
      cases data <;> simp [getLoop]
  | cons k rest ih =>
    intro data v
    constructor
    · intro h
      cases data <;> simp [getLoop] at h
      case dict entries =>
        rcases hfind : dictFind entries k with _ | w
        · rw [hfind] at h; simp at h
        · rw [hfind] at h; simp at h
          exact Stored.cons hfind ((ih w v).mp h)
    · intro h
      cases h with
      | cons hfind hrest =>
        simp [getLoop, hfind]
        exact (ih _ _).mpr hrest

/-- Running `check_death` over matching frames: when `k` frames remain and
the counter is exactly `k` short of the required streak, every call but the
last returns `confirmed = false`, the last returns `confirmed = true`, and
the counter ends at `0`. -/
theorem runMatches_aux (txt : List Char) :
    ∀ (k : Nat) (s : DetectorState), 0 < k →
      (s.consecutiveHits : Int) + k = s.requiredStreak →
      ((runFrames true (fun _ : Unit => (true, txt)) s
          (List.replicate k (some ()))).1.map Prod.fst
        = List.replicate (k - 1) false ++ [true]) ∧
      (runFrames true (fun _ : Unit => (true, txt)) s
          (List.replicate k (some ()))).2.consecutiveHits = 0 := by
  intro k
  induction k with
  | zero => intro s h; exact absurd h (lt_irrefl 0)
  | succ k ih =>
    intro s hk hsum
    have hstep : checkDeath true (fun _ : Unit => (true, txt)) s (some ()) =
        confirmDetection s true 1 (some txt) := rfl
    by_cases hk0 : k = 0
    · subst hk0
      have hge : s.requiredStreak ≤ (s.consecutiveHits : Int) + 1 := by
        push_cast at hsum; omega
      rw [List.replicate_succ]
      simp [runFrames, hstep, confirmDetection_true, hge]
    · have hlt : ¬ s.requiredStreak ≤ (s.consecutiveHits : Int) + 1 := by
        push_cast at hsum; omega
      have hfalse : confirmDetection s true 1 (some txt) =
          ((false, 1),
            { s with consecutiveHits := s.consecutiveHits + 1,
                     lastMethod := some txt, lastConfidence := 1 }) := by
        rw [confirmDetection_true, if_neg (by push_cast; exact hlt)]
      have hnext := ih { s with consecutiveHits := s.consecutiveHits + 1,
                                lastMethod := some txt, lastConfidence := 1 }
        (Nat.pos_of_ne_zero hk0) (by push_cast at hsum ⊢; omega)
      rw [List.replicate_succ]
      constructor
      · simp only [runFrames, hstep, hfalse, List.map_cons]
        rw [hnext.1]
        have : List.replicate (k + 1 - 1) false = false :: List.replicate (k - 1) false := by
          have hk1 : k + 1 - 1 = (k - 1) + 1 := by omega
          rw [hk1, List.replicate_succ]
        rw [this]
        rfl
      · simp only [runFrames, hstep, hfalse]
        exact hnext.2

/-- Claim C1: the classifier's per-frame transition implements streak
confirmation.  With `required_streak = N ≥ 1` and a counter below `N`, a
matching frame increments the counter and confirms exactly when it reaches
`N`, resetting it to `0`; hence from a zero counter, `N` consecutive
matching frames yield `confirmed = false` on calls `1..N-1` and
`confirmed = true` on the `N`-th, with the counter reset to `0`. -/
theorem claim_C1_streak_confirmation (N : Nat) (hN : 1 ≤ N)
    (s0 : DetectorState) (h0 : s0.consecutiveHits = 0)
    (hr : s0.requiredStreak = N) (txt : List Char) :
    (∀ s : DetectorState, s.requiredStreak = N → s.consecutiveHits < N →
      ((confirmDetection s true 1 (some txt)).2.consecutiveHits =
        if s.consecutiveHits + 1 = N then 0 else s.consecutiveHits + 1) ∧
      ((confirmDetection s true 1 (some txt)).1.1 = true ↔
        s.consecutiveHits + 1 = N)) ∧
    ((runFrames true (fun _ : Unit => (true, txt)) s0
        (List.replicate N (some ()))).1.map Prod.fst
      = List.replicate (N - 1) false ++ [true]) ∧
    (runFrames true (fun _ : Unit => (true, txt)) s0
        (List.replicate N (some ()))).2.consecutiveHits = 0 := by
  have hrun := runMatches_aux txt N s0 (by omega) (by rw [h0, hr]; push_cast; ring)
  refine ⟨?_, hrun.1, hrun.2⟩
  intro s hsr hlt
  rw [confirmDetection_true]
  by_cases hc : s.consecutiveHits + 1 = N
  · have hcond : s.requiredStreak ≤ (s.consecutiveHits : Int) + 1 := by
      rw [hsr]; omega
    rw [if_pos (by push_cast; exact hcond)]
    simp [hc]
  · have hcond : ¬ s.requiredStreak ≤ (s.consecutiveHits : Int) + 1 := by
      rw [hsr]; omega
    rw [if_neg (by push_cast; exact hcond)]
    simp [hc]

/-- Witness for C1 at the spec's example `required_streak = 2`: two matching
frames produce results `[false, true]`. -/
theorem claim_C1_witness :
    (runFrames true (fun _ : Unit => (true, [])) detectorStateStreak2
        (List.replicate 2 (some ()))).1.map Prod.fst = [false, true] := by
  have h := (claim_C1_streak_confirmation 2 (by norm_num) detectorStateStreak2
    rfl (by decide) []).2.1
  simpa using h

/-- Claim C6: `check_death` on a null frame returns `(false, 0.0)` and
leaves the classifier state — in particular the streak counter, the last
method, and the last confidence — unchanged. -/
theorem claim_C6_null_frame {Frame : Type} (ocrAvailable : Bool)
    (ocrDetect : Frame → Bool × List Char) (s : DetectorState) :
    checkDeath ocrAvailable ocrDetect s none = ((false, 0), s) ∧
    (checkDeath ocrAvailable ocrDetect s none).2.consecutiveHits =
      s.consecutiveHits ∧
    (checkDeath ocrAvailable ocrDetect s none).2.lastMethod = s.lastMethod ∧
    (checkDeath ocrAvailable ocrDetect s none).2.lastConfidence =
      s.lastConfidence :=
  ⟨rfl, rfl, rfl, rfl⟩

/-- Claim C7: the fuzzy OCR correction is idempotent — correcting an
already-corrected string yields the same string. -/
theorem claim_C7_fuzzy_idempotent (s : List Char) :
    fuzzyCorrect (fuzzyCorrect s) = fuzzyCorrect s := by
  induction s with
  | nil => rfl
  | cons c cs ih =>
    rw [fuzzyCorrect_cons, fuzzyCorrect_cons, correctChar_idem, ih]

/-- Claim C8: when `required_streak ≥ 1` and the counter is below the
streak, it is again below the streak (and in particular not at or above it)
after any `check_death` call, on any frame with any match outcome; the
configured streak is unchanged by the call, and `reload` restores the
counter to `0`. -/
theorem claim_C8_streak_invariant {Frame : Type} (ocrAvailable : Bool)
    (ocrDetect : Frame → Bool × List Char) (s : DetectorState)
    (frame : Option Frame) (hstreak : 1 ≤ s.requiredStreak)
    (hinv : (s.consecutiveHits : Int) < s.requiredStreak) :
    ((checkDeath ocrAvailable ocrDetect s frame).2.consecutiveHits : Int)
        < (checkDeath ocrAvailable ocrDetect s frame).2.requiredStreak ∧
    (checkDeath ocrAvailable ocrDetect s frame).2.requiredStreak =
      s.requiredStreak ∧
    ∀ cfg : SettingsSrc, (reload cfg s).consecutiveHits = 0 := by
  have key :
      ((checkDeath ocrAvailable ocrDetect s frame).2.consecutiveHits : Int)
          < (checkDeath ocrAvailable ocrDetect s frame).2.requiredStreak ∧
      (checkDeath ocrAvailable ocrDetect s frame).2.requiredStreak =
        s.requiredStreak := by
    cases frame with
    | none => exact ⟨hinv, rfl⟩
    | some f =>
      cases hoc : ocrAvailable with
      | false =>
        simp only [checkDeath, Bool.false_eq_true, if_false,
          confirmDetection_false]
        constructor
        · simpa using hstreak
        · trivial
      | true =>
        rcases hdet : ocrDetect f with ⟨d, t⟩
        cases d with
        | false =>
          simp only [checkDeath, if_true, hdet, confirmDetection_false]
          constructor
          · simpa using hstreak
          · trivial
        | true =>
          simp only [checkDeath, if_true, hdet, confirmDetection_true]
          by_cases hge : s.requiredStreak ≤ (s.consecutiveHits : Int) + 1
          · rw [if_pos (by push_cast; exact hge)]
            constructor
            · simpa using hstreak
            · rfl
          · rw [if_neg (by push_cast; exact hge)]
            constructor
            · push_cast; omega
            · rfl
  exact ⟨key.1, key.2, fun _ => rfl⟩

/-- Witness for C8 at the default configuration: streak 2, zero counter, a
matching frame. -/
theorem claim_C8_witness :
    ((checkDeath true (fun _ : Unit => (true, [])) detectorStateStreak2
        (some ())).2.consecutiveHits : Int)
      < (checkDeath true (fun _ : Unit => (true, [])) detectorStateStreak2
          (some ())).2.requiredStreak :=
  (claim_C8_streak_invariant true (fun _ : Unit => (true, []))
    detectorStateStreak2 (some ()) (by decide) (by decide)).1

/-- Claim C9: the code never validates `required_streak ≥ 1`; with a
configured value `≤ 0`, `check_death` on every non-null frame returns
`confirmed = true`, keyword match or not, because the reset counter `0`
already satisfies `counter ≥ required_streak`.  `_load_settings` installs
the configured value unmodified. -/
theorem claim_C9_nonpositive_streak {Frame : Type} (ocrAvailable : Bool)
    (ocrDetect : Frame → Bool × List Char) (s : DetectorState) (f : Frame)
    (hstreak : s.requiredStreak ≤ 0) :
    (checkDeath ocrAvailable ocrDetect s (some f)).1.1 = true ∧
    ∀ cfg : SettingsSrc,
      (loadSettings cfg s).requiredStreak = cfg.consecutiveHits := by
  refine ⟨?_, fun _ => rfl⟩
  cases hoc : ocrAvailable with
  | false =>
    simp only [checkDeath, Bool.false_eq_true, if_false, confirmDetection_false]
    simpa using le_trans hstreak (by positivity)
  | true =>
    rcases hdet : ocrDetect f with ⟨d, t⟩
    cases d with
    | false =>
      simp only [checkDeath, if_true, hdet, confirmDetection_false]
      simpa using le_trans hstreak (by positivity)
    | true =>
      simp only [checkDeath, if_true, hdet, confirmDetection_true]
      rw [if_pos (by push_cast; omega)]

/-- Witness for C9: streak configured to `0`, a non-matching frame still
confirms. -/
theorem claim_C9_witness :
    (checkDeath true (fun _ : Unit => (false, [])) detectorStateStreak0
        (some ())).1.1 = true :=
  (claim_C9_nonpositive_streak true (fun _ : Unit => (false, []))
    detectorStateStreak0 () (by decide)).1

/-- Claim C2 (amended): the keyword match predicate returns true iff some
keyword, canonicalized by removing spaces and upper-casing (other
non-alphanumeric characters in the keyword are kept), is a substring of the
canonicalized OCR text or of the fuzzy-corrected canonicalized OCR text. -/
theorem claim_C2_keyword_match_iff (fuzzyMatching : Bool)
    (keywords : List (List Char)) (text : List Char) :
    containsKeyword fuzzyMatching keywords text = true ↔
      ∃ kw ∈ keywords,
        normalizeKeyword kw <:+: normalizeText text ∨
        normalizeKeyword kw <:+:
          (if fuzzyMatching then fuzzyCorrect (normalizeText text)
           else normalizeText text) := by
  simp only [containsKeyword, List.any_eq_true, Bool.or_eq_true,
    containsSub_iff]

/-- Counterexample to C2 as stated: with fuzzy matching on, the keyword
`"YOU-DIED"` against the OCR text `"you died"` does not match in the code
(the hyphen survives keyword canonicalization), while the claim's predicate
(keyword stripped of every non-alphanumeric character) does match. -/
theorem claim_C2_counterexample :
    containsKeyword true ["YOU-DIED".toList] ("you died".toList) = false ∧
    containsKeywordSpec true ["YOU-DIED".toList] ("you died".toList) = true := by
  constructor <;> decide

/-- Claim C3: the cooldown controller dispatches on a confirmed detection
iff its time is more than `cooldown` after the last dispatched event's time;
the last-dispatch timestamp changes only on an actual dispatch, and the
dispatched event kind follows the boss-mode flag; consequently a second
confirmed detection within `cooldown` seconds of a dispatched one is wholly
suppressed, leaving exactly one dispatched event. -/
theorem claim_C3_cooldown (cooldown : ℚ) (bossMode bossMode2 : Bool)
    (st : LoopState) (t1 t2 : ℚ)
    (h1 : t1 - st.lastDeathTime > cooldown) (h2 : t2 - t1 ≤ cooldown) :
    (∀ (s : LoopState) (b : Bool) (now : ℚ),
      ((handleDetection cooldown b s true now).events.length =
          s.events.length + 1 ↔ now - s.lastDeathTime > cooldown) ∧
      (¬ now - s.lastDeathTime > cooldown →
        handleDetection cooldown b s true now = s) ∧
      (now - s.lastDeathTime > cooldown →
        handleDetection cooldown b s true now =
          { lastDeathTime := now,
            events := s.events ++
              [if b then EventType.bossDeath else EventType.death] })) ∧
    handleDetection cooldown bossMode2
        (handleDetection cooldown bossMode st true t1) true t2 =
      { lastDeathTime := t1,
        events := st.events ++
          [if bossMode then EventType.bossDeath else EventType.death] } ∧
    (handleDetection cooldown bossMode2
        (handleDetection cooldown bossMode st true t1) true t2).events.length =
      st.events.length + 1 := by
  have hgen : ∀ (s : LoopState) (b : Bool) (now : ℚ),
      ((handleDetection cooldown b s true now).events.length =
          s.events.length + 1 ↔ now - s.lastDeathTime > cooldown) ∧
      (¬ now - s.lastDeathTime > cooldown →
        handleDetection cooldown b s true now = s) ∧
      (now - s.lastDeathTime > cooldown →
        handleDetection cooldown b s true now =
          { lastDeathTime := now,
            events := s.events ++
              [if b then EventType.bossDeath else EventType.death] }) := by
    intro s b now
    by_cases h : now - s.lastDeathTime > cooldown
    · simp [handleDetection, h]
    · simp [handleDetection, h]
  have hst1 : handleDetection cooldown bossMode st true t1 =
      { lastDeathTime := t1,
        events := st.events ++
          [if bossMode then EventType.bossDeath else EventType.death] } :=
    (hgen st bossMode t1).2.2 h1
  have hsup : handleDetection cooldown bossMode2
      (handleDetection cooldown bossMode st true t1) true t2 =
      handleDetection cooldown bossMode st true t1 := by
    apply (hgen _ bossMode2 t2).2.1
    rw [hst1]
    exact not_lt.mpr h2
  refine ⟨hgen, ?_, ?_⟩
  · rw [hsup, hst1]
  · rw [hsup, hst1]
    simp

/-- Witness for C3: cooldown 5, fresh state, detections at times 10 and 13
produce exactly one dispatched event. -/
theorem claim_C3_witness :
    (handleDetection 5 true
        (handleDetection 5 false { lastDeathTime := 0, events := [] } true 10)
        true 13).events.length = 1 := by
  have h := (claim_C3_cooldown 5 false true
    { lastDeathTime := 0, events := [] } 10 13
    (by norm_num) (by norm_num)).2.2
  simpa using h

/-- Claim C4: with a window-name hint, the window found, and both fraction
sides positive, the resolver returns the window-relative rectangle,
`int()`-truncated: `x = window.x + x_frac * window.width` and analogously
for y, width, height. -/
theorem claim_C4_window_relative (cfg : RegionConfig)
    (findWindow : List Char → Option Bounds) (wb : Bounds)
    (hname : cfg.windowName ≠ [])
    (hfind : findWindow cfg.windowName = some wb)
    (hw : 0 < cfg.wPct) (hh : 0 < cfg.hPct) :
    getDetectionRegion cfg findWindow =
      some (truncInt ((wb.x : ℚ) + cfg.xPct * (wb.width : ℚ)),
            truncInt ((wb.y : ℚ) + cfg.yPct * (wb.height : ℚ)),
            truncInt (cfg.wPct * (wb.width : ℚ)),
            truncInt (cfg.hPct * (wb.height : ℚ))) := by
  simp [getDetectionRegion, hname, hfind, hw, hh]

/-- Witness for C4 at the spec's example: fractions (0.25, 0.40, 0.50, 0.20)
against window bounds (100, 50, 800, 600) yield (300, 290, 400, 120). -/
theorem claim_C4_witness :
    getDetectionRegion regionCfgExample findWindowExample =
      some (300, 290, 400, 120) := by
  have h := claim_C4_window_relative regionCfgExample findWindowExample
    { x := 100, y := 50, width := 800, height := 600 }
    (by decide) rfl (by norm_num [regionCfgExample]) (by norm_num [regionCfgExample])
  rw [h]
  norm_num [truncInt, regionCfgExample]

/-- Claim C5 (amended): with a window-name hint, the window found, but the
width or height fraction not positive, the resolver does NOT return the
window bounds: it falls through to the absolute fallback rectangle if its
width and height are positive, else to the legacy absolute rectangle if its
width and height are positive, else returns no region. -/
theorem claim_C5_zero_fraction_fallthrough (cfg : RegionConfig)
    (findWindow : List Char → Option Bounds) (wb : Bounds)
    (hname : cfg.windowName ≠ [])
    (hfind : findWindow cfg.windowName = some wb)
    (hzero : ¬ (0 < cfg.wPct ∧ 0 < cfg.hPct)) :
    getDetectionRegion cfg findWindow =
      if 0 < cfg.absW ∧ 0 < cfg.absH then
        some (cfg.absX, cfg.absY, cfg.absW, cfg.absH)
      else if 0 < cfg.legacyW ∧ 0 < cfg.legacyH then
        some (cfg.legacyX, cfg.legacyY, cfg.legacyW, cfg.legacyH)
      else none := by
  by_cases habs : 0 < cfg.absW ∧ 0 < cfg.absH
  · simp [getDetectionRegion, hname, hfind, hzero, habs]
  · by_cases hleg : 0 < cfg.legacyW ∧ 0 < cfg.legacyH
    · simp [getDetectionRegion, hname, hfind, hzero, habs, hleg]
    · simp [getDetectionRegion, hname, hfind, hzero, habs, hleg]

/-- Counterexample to C5 as stated: window found with bounds
(100, 50, 800, 600), fractions zero, absolute fallback (10, 10, 200, 100)
present — the code returns the absolute fallback, not the window bounds. -/
theorem claim_C5_counterexample :
    findWindowExample regionCfgZeroPct.windowName =
      some { x := 100, y := 50, width := 800, height := 600 } ∧
    regionCfgZeroPct.wPct = 0 ∧ regionCfgZeroPct.hPct = 0 ∧
    getDetectionRegion regionCfgZeroPct findWindowExample =
      some (10, 10, 200, 100) ∧
    getDetectionRegion regionCfgZeroPct findWindowExample ≠
      some (100, 50, 800, 600) := by
  have hres : getDetectionRegion regionCfgZeroPct findWindowExample =
      some (10, 10, 200, 100) := by
    unfold getDetectionRegion
    simp only [regionCfgZeroPct, findWindowExample]
    norm_num
    decide
  refine ⟨rfl, by norm_num [regionCfgZeroPct], by norm_num [regionCfgZeroPct],
    hres, ?_⟩
  rw [hres]
  decide

/-- Witness for C5 (amended): the zero-fraction configuration with a present
absolute fallback resolves to that fallback. -/
theorem claim_C5_witness :
    getDetectionRegion regionCfgZeroPct findWindowExample =
      some (10, 10, 200, 100) := by
  have h := claim_C5_zero_fraction_fallthrough regionCfgZeroPct
    findWindowExample { x := 100, y := 50, width := 800, height := 600 }
    (by decide) rfl (by norm_num [regionCfgZeroPct])
  rw [h]
  norm_num [regionCfgZeroPct]

/-- Claim C10: `Config.get` returns the supplied default when the traversal
fails (a missing path segment or a non-dict intermediate value, i.e. no
stored value exists) and also when the stored value is exactly `None`;
otherwise it returns the stored value.  Splitting the dotted key reduces
`Config.get` to the traversal, which is a total function — the lookup never
raises. -/
theorem claim_C10_config_get_default (data : JValue)
    (keys : List (List Char)) (default : JValue) :
    ((¬ ∃ v, Stored data keys v) →
      configGetKeys data keys default = default) ∧
    (Stored data keys JValue.null →
      configGetKeys data keys default = default) ∧
    (∀ v, Stored data keys v → v ≠ JValue.null →
      configGetKeys data keys default = v) ∧
    ∀ key : List Char,
      configGet data key default = configGetKeys data (key.splitOn '.') default := by
  refine ⟨?_, ?_, ?_, fun _ => rfl⟩
  · intro h
    have hnone : getLoop data keys = none := by
      rcases hv : getLoop data keys with _ | v
      · rfl
      · exact absurd ⟨v, (getLoop_eq_some_iff keys data v).mp hv⟩ h
    simp [configGetKeys, hnone]
  · intro h
    have hsome : getLoop data keys = some JValue.null :=
      (getLoop_eq_some_iff _ _ _).mpr h
    simp [configGetKeys, hsome]
  · intro v hv hne
    have hsome : getLoop data keys = some v :=
      (getLoop_eq_some_iff _ _ _).mpr hv
    cases v <;> first
      | exact absurd rfl hne
      | simp [configGetKeys, hsome]

/-- Witness for C10: a stored `None` under key `"a"` yields the default. -/
theorem claim_C10_witness :
    configGetKeys (JValue.dict [("a".toList, JValue.null)]) ["a".toList]
      (JValue.int 7) = JValue.int 7 :=
  (claim_C10_config_get_default _ _ _).2.1
    (Stored.cons rfl (Stored.nil JValue.null))

end BBDetector
